import Mathlib

/-!
Verification of the grid-printer library: a shallow embedding of
`src/lib.rs` and `src/style.rs` (style engine, builder, two-pass print),
with theorems settling the specification claims.

Modelling conventions:
* Rust `String` becomes Lean `String`; `cell.len()` becomes `String.length`
  (the library measures raw character counts, no Unicode-width handling).
* The `Display` source `Vec<Vec<F>>` is modelled as `List (List String)`,
  the cells already stringified (`format!("{}", el)` is the identity there).
* The interior-mutability cell `max_widths : RefCell<Vec<usize>>` is the
  mutable state of a printer; `print` returns the emitted text together
  with the updated widths so that sequential calls can be chained.
* A Rust panic (`unwrap` on a missing foreground, underflow of the
  unsigned subtraction `col_width - cell.len()`, `i % cols` with
  `cols = 0`) is modelled as `none` : the printer aborts with no result.
-/

/-- Foreground colors, from `src/style.rs` (`enum Fg`). -/
inductive Fg where
  | Black | Red | Green | Yellow | Blue | Magenta | Cyan | White
  | BrightBlack | BrightRed | BrightGreen | BrightYellow
  | BrightBlue | BrightMagenta | BrightCyan | BrightWhite
  | Reset
deriving DecidableEq

/-- Background colors, from `src/style.rs` (`enum Bg`). -/
inductive Bg where
  | Black | Red | Green | Yellow | Blue | Magenta | Cyan | White
  | BrightBlack | BrightRed | BrightGreen | BrightYellow
  | BrightBlue | BrightMagenta | BrightCyan | BrightWhite
  | Reset
deriving DecidableEq

/-- Select Graphic Renditions, from `src/style.rs` (`enum Sgr`). -/
inductive Sgr where
  | Bold | Faint | Italic | Underline | StrikeThrough | Reset
deriving DecidableEq

/-- `Fg::escape_code` from `src/style.rs`. -/
def Fg.escape_code : Fg → String
  | .Black         => "\x1b[1;30m"
  | .Red           => "\x1b[1;31m"
  | .Green         => "\x1b[1;32m"
  | .Yellow        => "\x1b[1;33m"
  | .Blue          => "\x1b[1;34m"
  | .Magenta       => "\x1b[1;35m"
  | .Cyan          => "\x1b[1;36m"
  | .White         => "\x1b[1;37m"
  | .BrightBlack   => "\x1b[1;90m"
  | .BrightRed     => "\x1b[1;91m"
  | .BrightGreen   => "\x1b[1;92m"
  | .BrightYellow  => "\x1b[1;93m"
  | .BrightBlue    => "\x1b[1;94m"
  | .BrightMagenta => "\x1b[1;95m"
  | .BrightCyan    => "\x1b[1;96m"
  | .BrightWhite   => "\x1b[1;97m"
  | .Reset         => "\x1b[1;0m"

/-- `Bg::escape_code` from `src/style.rs`. -/
def Bg.escape_code : Bg → String
  | .Black         => "\x1b[1;40m"
  | .Red           => "\x1b[1;41m"
  | .Green         => "\x1b[1;42m"
  | .Yellow        => "\x1b[1;43m"
  | .Blue          => "\x1b[1;44m"
  | .Magenta       => "\x1b[1;45m"
  | .Cyan          => "\x1b[1;46m"
  | .White         => "\x1b[1;47m"
  | .BrightBlack   => "\x1b[1;100m"
  | .BrightRed     => "\x1b[1;101m"
  | .BrightGreen   => "\x1b[1;102m"
  | .BrightYellow  => "\x1b[1;103m"
  | .BrightBlue    => "\x1b[1;104m"
  | .BrightMagenta => "\x1b[1;105m"
  | .BrightCyan    => "\x1b[1;106m"
  | .BrightWhite   => "\x1b[1;107m"
  | .Reset         => "\x1b[1;0m"

/-- `Sgr::escape_code` from `src/style.rs`. -/
def Sgr.escape_code : Sgr → String
  | .Bold          => "\x1b[1;1m"
  | .Faint         => "\x1b[1;2m"
  | .Italic        => "\x1b[1;3m"
  | .Underline     => "\x1b[1;4m"
  | .StrikeThrough => "\x1b[1;9m"
  | .Reset         => "\x1b[1;0m"

/-- `struct StyleOpt` from `src/style.rs`: optional foreground, background
and text rendition for one column. -/
structure StyleOpt where
  fg : Option Fg
  bg : Option Bg
  sgr : Option Sgr
deriving DecidableEq

/-- `StyleOpt::new` / `Default`: no style options set. -/
def StyleOpt.new : StyleOpt := ⟨none, none, none⟩

/-- `stylize` from `src/style.rs`: foreground code (empty if unset) then
background code then rendition code, the text, and one trailing reset. -/
def stylize (s : String) (opt : StyleOpt) : String :=
  (match opt.fg with | none => "" | some fg => fg.escape_code)
    ++ (match opt.bg with | none => "" | some bg => bg.escape_code)
    ++ (match opt.sgr with | none => "" | some sgr => sgr.escape_code)
    ++ s ++ Fg.Reset.escape_code

/-- Modelled from the spec: `colorize` is called by `GridPrinter::print_cell`
in `src/lib.rs` but its definition is missing from `src/` (only `stylize`
is defined there).  Its call site passes a single foreground color, so,
faithful to spec §8 property 7 (a styled cell is wrapped as
color code + value + reset code), it wraps the text in that color's escape
code and a trailing reset. -/
def colorize (s : String) (fg : Fg) : String :=
  fg.escape_code ++ s ++ Fg.Reset.escape_code

/-- Reference foreground SGR parameter from spec §6: 30-37 for the eight
base colors, 90-97 for the bright ones, 0 for reset. -/
def specFgParam : Fg → Nat
  | .Black => 30 | .Red => 31 | .Green => 32 | .Yellow => 33
  | .Blue => 34 | .Magenta => 35 | .Cyan => 36 | .White => 37
  | .BrightBlack => 90 | .BrightRed => 91 | .BrightGreen => 92
  | .BrightYellow => 93 | .BrightBlue => 94 | .BrightMagenta => 95
  | .BrightCyan => 96 | .BrightWhite => 97
  | .Reset => 0

/-- Reference background SGR parameter from spec §6: 40-47 for the eight
base colors, 100-107 for the bright ones, 0 for reset. -/
def specBgParam : Bg → Nat
  | .Black => 40 | .Red => 41 | .Green => 42 | .Yellow => 43
  | .Blue => 44 | .Magenta => 45 | .Cyan => 46 | .White => 47
  | .BrightBlack => 100 | .BrightRed => 101 | .BrightGreen => 102
  | .BrightYellow => 103 | .BrightBlue => 104 | .BrightMagenta => 105
  | .BrightCyan => 106 | .BrightWhite => 107
  | .Reset => 0

/-- Reference decoration SGR parameter from spec §6: bold 1, faint 2,
italic 3, underline 4, strikethrough 9, reset 0. -/
def specSgrParam : Sgr → Nat
  | .Bold => 1 | .Faint => 2 | .Italic => 3 | .Underline => 4
  | .StrikeThrough => 9 | .Reset => 0

/-- Reference escape sequence of spec §6: `ESC [ 1 ; N m` for SGR
parameter `N`. -/
def specEscape (n : Nat) : String :=
  "\x1b[1;" ++ toString n ++ "m"

/-- `struct GridPrinter` from `src/lib.rs`: dimensions, the mutable
`max_widths` cache (contents of the `RefCell`), inter-column spacing and
the optional per-column styles. -/
structure GridPrinter where
  rows : Nat
  cols : Nat
  max_widths : List Nat
  col_spacing : Nat
  col_colors : Option (List (Option StyleOpt))
deriving DecidableEq

/-- `struct GridPrinterBuilder` from `src/lib.rs`. -/
structure GridPrinterBuilder where
  rows : Nat
  cols : Nat
  col_spacing : Nat
  col_colors : Option (List (Option StyleOpt))
deriving DecidableEq

/-- `impl Default for GridPrinterBuilder`: 1×1, spacing 2, no styles. -/
def GridPrinterBuilder.defaultBuilder : GridPrinterBuilder :=
  { rows := 1, cols := 1, col_spacing := 2, col_colors := none }

/-- `GridPrinterBuilder::new`: the default builder with the given
dimensions. -/
def GridPrinterBuilder.new (rows cols : Nat) : GridPrinterBuilder :=
  { GridPrinterBuilder.defaultBuilder with rows := rows, cols := cols }

/-- `GridPrinterBuilder::col_spacing`. -/
def GridPrinterBuilder.col_spacing_set (b : GridPrinterBuilder) (n : Nat) :
    GridPrinterBuilder :=
  { b with col_spacing := n }

/-- `GridPrinterBuilder::col_colors` from `src/lib.rs` lines 196-200: it
stores the supplied sequence unconditionally — there is no length check
against `cols` and the return type is the builder itself, not a `Result`. -/
def GridPrinterBuilder.col_colors_set (b : GridPrinterBuilder)
    (cc : List (Option StyleOpt)) : GridPrinterBuilder :=
  { b with col_colors := some cc }

/-- `GridPrinterBuilder::build`: zero-initialized `max_widths` of length
`cols`. -/
def GridPrinterBuilder.build (b : GridPrinterBuilder) : GridPrinter :=
  { rows := b.rows, cols := b.cols,
    max_widths := List.replicate b.cols 0,
    col_spacing := b.col_spacing, col_colors := b.col_colors }

/-- `enum GridPrinterErr` from `src/lib.rs`. -/
inductive GridPrinterErr where
  | DimensionErr
deriving DecidableEq

/-- Modelled from the spec: the per-index column-style builder operation
(`col_style` / `with_column_style`) is called from the crate's examples and
from the `src/style.rs` module documentation but its definition is missing
from `src/`.  Per spec §4.2: fails with `DimensionError` when
`index >= cols`; otherwise lazily allocates an all-absent styles sequence
of length `cols` if none exists yet and sets the entry at `index`. -/
def GridPrinterBuilder.col_style (b : GridPrinterBuilder) (index : Nat)
    (style : StyleOpt) : Except GridPrinterErr GridPrinterBuilder :=
  if index ≥ b.cols then
    .error .DimensionErr
  else
    let styles := b.col_colors.getD (List.replicate b.cols none)
    .ok { b with col_colors := some (styles.set index (some style)) }

/-- Cell lookup of `GridPrinter::print` (`src/lib.rs` lines 106-114):
`source.get(i)` then `row.get(j)`, with an absent row or cell normalized
to the empty string. -/
def cellAt (source : List (List String)) (i j : Nat) : String :=
  match source.get? i with
  | none => ""
  | some row =>
    match row.get? j with
    | none => ""
    | some el => el

/-- The width update of the measurement pass (`src/lib.rs` lines 115-118):
raise `max_widths[j]` to `len` when `len` exceeds the recorded value. -/
def updateWidth (mw : List Nat) (j len : Nat) : List Nat :=
  if len > mw.getD j 0 then mw.set j len else mw

/-- Pass 1 of `GridPrinter::print` (`src/lib.rs` lines 103-122): the nested
loops over `0..rows` and `0..cols` that stringify every logical cell,
update the width cache, and accumulate the cells into `buff` in row-major
order.  Returns the buffer and the updated `max_widths`. -/
def pass1 (p : GridPrinter) (source : List (List String)) :
    List String × List Nat :=
  (List.range p.rows).foldl
    (fun st i =>
      (List.range p.cols).foldl
        (fun st2 j =>
          let cell := cellAt source i j
          (st2.1 ++ [cell], updateWidth st2.2 j cell.length))
        st)
    ([], p.max_widths)

/-- `GridPrinter::pad`: `n` space characters. -/
def padStr (n : Nat) : String :=
  String.mk (List.replicate n ' ')

/-- The per-cell style lookup of the emission pass (`src/lib.rs` lines
130-136): absent `col_colors`, or an index beyond its length, yields no
style. -/
def styleFor (p : GridPrinter) (col_idx : Nat) : Option StyleOpt :=
  match p.col_colors with
  | none => none
  | some cc => (cc.get? col_idx).getD none

/-- The styling step of `GridPrinter::print_cell` (`src/lib.rs` lines
93-96).  With a style present it calls `colorize` on the style's
foreground — an unconditional `unwrap`, modelled as `none` (panic) when
the foreground is unset. -/
def styledCellText (style : Option StyleOpt) (cell : String) : Option String :=
  match style with
  | none => some cell
  | some so => so.fg.map (fun fg => colorize cell fg)

/-- `GridPrinter::print_cell` (`src/lib.rs` lines 92-100): the styling
step, then the padding `max_widths[col_idx] - cell.len() + col_spacing`.
The unsigned subtraction is modelled as `none` (panic/underflow) when the
cell is longer than the recorded width. -/
def print_cellFn (mw : List Nat) (spacing : Nat) (cell : String)
    (col_idx : Nat) (style : Option StyleOpt) : Option String :=
  match styledCellText style cell with
  | none => none
  | some s =>
    let col_width := mw.getD col_idx 0
    if cell.length ≤ col_width then
      some (s ++ padStr (col_width - cell.length + spacing))
    else
      none

/-- Pass 2 of `GridPrinter::print` (`src/lib.rs` lines 126-144): emit each
buffered cell with the style of its column `i % cols`, appending a newline
after every `cols`-th cell.  `i % cols` on a non-empty buffer with
`cols = 0` would panic in the source, modelled as `none`. -/
def emit (p : GridPrinter) (mw : List Nat) : Nat → List String → Option String
  | _, [] => some ""
  | i, cell :: rest =>
    if p.cols = 0 then none
    else
      match print_cellFn mw p.col_spacing cell (i % p.cols)
          (styleFor p (i % p.cols)) with
      | none => none
      | some piece =>
        match emit p mw (i + 1) rest with
        | none => none
        | some restOut =>
          some (piece ++ (if (i + 1) % p.cols = 0 then "\n" else "") ++ restOut)

/-- `GridPrinter::print` (`src/lib.rs` lines 102-147): measurement pass,
then emission pass over the buffer.  Returns the emitted text (`none` on
panic) together with the `max_widths` state left in the `RefCell`. -/
def GridPrinter.print (p : GridPrinter) (source : List (List String)) :
    Option String × List Nat :=
  let r := pass1 p source
  (emit p r.2 0 r.1, r.2)

/-- The measurement pass of one row: fold of `updateWidth` over the column
indices `0..cols` with the lengths of row `i`'s cells. -/
def rowMw (source : List (List String)) (i cols : Nat) (mw : List Nat) :
    List Nat :=
  (List.range cols).foldl
    (fun m j => updateWidth m j (cellAt source i j).length) mw

/-- The width cache produced by the measurement pass: `rowMw` folded over
the row indices `0..rows`. -/
def mwL (rows cols : Nat) (source : List (List String)) (mw : List Nat) :
    List Nat :=
  (List.range rows).foldl (fun m i => rowMw source i cols m) mw

/-- The buffer produced by the measurement pass: all `rows × cols` logical
cells in row-major order. -/
def buffL (rows cols : Nat) (source : List (List String)) : List String :=
  (List.range rows).flatMap (fun i => (List.range cols).map (cellAt source i))

/-- The maximum cell length of column `j` over the `rows` logical rows. -/
def colMax (rows : Nat) (source : List (List String)) (j : Nat) : Nat :=
  (List.range rows).foldl (fun a i => max a (cellAt source i j).length) 0

/-- The `rows × cols` rectangular view of a source: every logical cell made
explicit, absent cells as empty strings, excess entries dropped. -/
def rectView (rows cols : Nat) (source : List (List String)) :
    List (List String) :=
  (List.range rows).map (fun i => (List.range cols).map (cellAt source i))

/-- Concrete example printer: 2×2, default spacing, foreground Magenta
configured on column 0, no style on column 1. -/
def egPrinter : GridPrinter :=
  ((GridPrinterBuilder.new 2 2).col_colors_set
    [some { fg := some Fg.Magenta, bg := none, sgr := none }, none]).build

/-- Concrete rectangular example source for `egPrinter`. -/
def egSource : List (List String) := [["a", "bb"], ["ccc", "d"]]

/-- Concrete example printer: 3×3, default spacing, no styles. -/
def egPrinter3 : GridPrinter := (GridPrinterBuilder.new 3 3).build

/-- Concrete example printer whose column 1 carries a style with no
foreground (decoration only). -/
def egPrinterNoFg : GridPrinter :=
  ((GridPrinterBuilder.new 1 2).col_colors_set
    [none, some { fg := none, bg := none, sgr := some Sgr.Bold }]).build

/-- C7: every `Fg`, `Bg` and `Sgr` variant maps to exactly the reference
ANSI escape string `ESC[1;Nm`, with `N` the standard SGR parameter:
30-37 and 90-97 for foregrounds, 40-47 and 100-107 for backgrounds,
0 for reset, and 1, 2, 3, 4, 9 for bold, faint, italic, underline and
strikethrough. -/
theorem escape_codes_match_reference :
    (∀ c : Fg, c.escape_code = specEscape (specFgParam c)) ∧
    (∀ c : Bg, c.escape_code = specEscape (specBgParam c)) ∧
    (∀ c : Sgr, c.escape_code = specEscape (specSgrParam c)) := by
  refine ⟨fun c => ?_, fun c => ?_, fun c => ?_⟩ <;> cases c <;> rfl

/-- Folding a step that appends `F a` to the first component and updates
the second with `G` splits into a `flatMap` and a plain fold. -/
theorem foldl_pair_split {α β σ : Type} (F : α → List β) (G : σ → α → σ)
    (l : List α) (b : List β) (s : σ) :
    l.foldl (fun st a => (st.1 ++ F a, G st.2 a)) (b, s)
      = (b ++ l.flatMap F, l.foldl G s) := by
  induction l generalizing b s with
  | nil => simp
  | cons a t ih => simp [ih]

/-- Two folds agree when their step functions agree on the list's
elements. -/
theorem foldl_congr_mem {α σ : Type} (l : List α) (f g : σ → α → σ)
    (h : ∀ s a, a ∈ l → f s a = g s a) : ∀ s, l.foldl f s = l.foldl g s := by
  induction l with
  | nil => intro s; rfl
  | cons a t ih =>
    intro s
    rw [List.foldl_cons, List.foldl_cons, h s a (by simp),
      ih (fun s' a' ha' => h s' a' (by simp [ha']))]

/-- A fold whose step ignores the element is the identity. -/
theorem foldl_id {α σ : Type} (l : List α) (s : σ) :
    l.foldl (fun st _ => st) s = s := by
  induction l with
  | nil => rfl
  | cons a t ih => rw [List.foldl_cons]; exact ih

/-- A fold whose step preserves list length preserves list length. -/
theorem foldl_length_inv {α : Type} (f : List Nat → α → List Nat)
    (hf : ∀ m a, (f m a).length = m.length) :
    ∀ (l : List α) (m : List Nat), (l.foldl f m).length = m.length := by
  intro l
  induction l with
  | nil => intro m; rfl
  | cons a t ih => intro m; rw [List.foldl_cons, ih, hf]

theorem updateWidth_length (mw : List Nat) (j v : Nat) :
    (updateWidth mw j v).length = mw.length := by
  unfold updateWidth; split <;> simp

/-- A `flatMap` of singletons is a `map`. -/
theorem flatMap_singleton_map {α β : Type} (f : α → β) (l : List α) :
    (l.flatMap fun a => [f a]) = l.map f := by
  induction l with
  | nil => rfl
  | cons a t ih => simp [ih]

/-- `updateWidth` at `j` raises only position `j`, to the max of the old
value and the new length. -/
theorem updateWidth_getD (mw : List Nat) (j v k : Nat) (hk : k < mw.length) :
    (updateWidth mw j v).getD k 0 =
      if j = k then max (mw.getD k 0) v else mw.getD k 0 := by
  have hgd : ∀ (l : List Nat), l.getD k 0 = l[k]?.getD 0 := fun l => by
    rw [List.getD_eq_getD_get?, List.get?_eq_getElem?]
  unfold updateWidth
  by_cases hjk : j = k
  · subst hjk
    rw [if_pos rfl]
    by_cases hlt : v > mw.getD j 0
    · rw [if_pos hlt, hgd, List.getElem?_set_self hk, Option.getD_some,
        Nat.max_eq_right (Nat.le_of_lt hlt)]
    · rw [if_neg hlt, Nat.max_eq_left (Nat.le_of_not_lt hlt)]
  · rw [if_neg hjk]
    by_cases hlt : v > mw.getD j 0
    · rw [if_pos hlt, hgd, List.getElem?_set_ne hjk, ← hgd]
    · rw [if_neg hlt]

/-- `pass1` in closed form: the row-major buffer and the measured width
cache. -/
theorem pass1_eq (p : GridPrinter) (source : List (List String)) :
    pass1 p source
      = (buffL p.rows p.cols source, mwL p.rows p.cols source p.max_widths) := by
  unfold pass1 buffL mwL
  have hstep : (fun (st : List String × List Nat) (i : Nat) =>
      (List.range p.cols).foldl
        (fun st2 j =>
          let cell := cellAt source i j
          (st2.1 ++ [cell], updateWidth st2.2 j cell.length)) st)
      = fun (st : List String × List Nat) (i : Nat) =>
          (st.1 ++ (List.range p.cols).map (cellAt source i),
            rowMw source i p.cols st.2) := by
    funext st i
    obtain ⟨b, m⟩ := st
    show (List.range p.cols).foldl
        (fun st2 j => (st2.1 ++ [cellAt source i j],
          updateWidth st2.2 j (cellAt source i j).length)) (b, m) = _
    rw [foldl_pair_split (fun j => [cellAt source i j])
      (fun m' j => updateWidth m' j (cellAt source i j).length),
      flatMap_singleton_map]
    simp [rowMw]
  rw [hstep]
  rw [foldl_pair_split (fun i => (List.range p.cols).map (cellAt source i))
    (fun m' i => rowMw source i p.cols m')]
  simp

/-- Folding `updateWidth` over distinct indices: position `k` becomes the
max of its old value and `g k` when `k` occurs, else is untouched. -/
theorem foldl_updateWidth_getD (g : Nat → Nat) :
    ∀ (l : List Nat) (mw : List Nat) (k : Nat), k < mw.length → l.Nodup →
    (l.foldl (fun m j => updateWidth m j (g j)) mw).getD k 0 =
      if k ∈ l then max (mw.getD k 0) (g k) else mw.getD k 0 := by
  intro l
  induction l with
  | nil => intro mw k hk _; simp
  | cons j t ih =>
    intro mw k hk hnd
    rw [List.foldl_cons]
    have hk' : k < (updateWidth mw j (g j)).length := by
      rw [updateWidth_length]; exact hk
    rw [ih (updateWidth mw j (g j)) k hk' (List.Nodup.of_cons hnd)]
    by_cases hmem : k ∈ t
    · rw [if_pos hmem, if_pos (by simp [hmem])]
      have hjk : j ≠ k := by
        intro h
        subst h
        exact (List.nodup_cons.mp hnd).1 hmem
      rw [updateWidth_getD mw j (g j) k hk, if_neg hjk]
    · rw [if_neg hmem, updateWidth_getD mw j (g j) k hk]
      by_cases hjk : j = k
      · subst hjk
        rw [if_pos rfl, if_pos (by simp)]
      · rw [if_neg hjk, if_neg (by
          intro h
          rcases List.mem_cons.mp h with h1 | h1
          · exact hjk h1.symm
          · exact hmem h1)]

theorem rowMw_length (source : List (List String)) (i cols : Nat)
    (mw : List Nat) : (rowMw source i cols mw).length = mw.length := by
  unfold rowMw
  exact foldl_length_inv _ (fun m j => updateWidth_length m j _) _ mw

theorem rowMw_getD (source : List (List String)) (i cols : Nat)
    (mw : List Nat) (k : Nat) (hk : k < mw.length) :
    (rowMw source i cols mw).getD k 0 =
      if k < cols then max (mw.getD k 0) (cellAt source i k).length
      else mw.getD k 0 := by
  unfold rowMw
  rw [foldl_updateWidth_getD (fun j => (cellAt source i j).length)
    (List.range cols) mw k hk (List.nodup_range cols)]
  simp [List.mem_range]

theorem mwL_length (rows cols : Nat) (source : List (List String))
    (mw : List Nat) : (mwL rows cols source mw).length = mw.length := by
  unfold mwL
  exact foldl_length_inv _ (fun m i => rowMw_length source i cols m) _ mw

theorem mwL_succ (rows cols : Nat) (source : List (List String))
    (mw : List Nat) :
    mwL (rows + 1) cols source mw = rowMw source rows cols (mwL rows cols source mw) := by
  unfold mwL
  rw [List.range_succ, List.foldl_append, List.foldl_cons, List.foldl_nil]

theorem colMax_succ (rows : Nat) (source : List (List String)) (j : Nat) :
    colMax (rows + 1) source j
      = max (colMax rows source j) (cellAt source rows j).length := by
  unfold colMax
  rw [List.range_succ, List.foldl_append, List.foldl_cons, List.foldl_nil]

/-- Pointwise value of the width cache after the measurement pass: within
the column range, the max of the prior cached value and the column's
maximum cell length; unchanged beyond it. -/
theorem mwL_getD (rows cols : Nat) (source : List (List String))
    (mw : List Nat) (k : Nat) (hk : k < mw.length) :
    (mwL rows cols source mw).getD k 0 =
      if k < cols then max (mw.getD k 0) (colMax rows source k)
      else mw.getD k 0 := by
  induction rows with
  | zero =>
    unfold mwL colMax
    simp
  | succ r ih =>
    rw [mwL_succ, rowMw_getD source r cols _ k (by rw [mwL_length]; exact hk),
      ih, colMax_succ]
    by_cases hkc : k < cols
    · rw [if_pos hkc, if_pos hkc, if_pos hkc, Nat.max_assoc]
    · rw [if_neg hkc, if_neg hkc, if_neg hkc]

theorem le_foldl_max_init (f : Nat → Nat) :
    ∀ (l : List Nat) (a : Nat), a ≤ l.foldl (fun acc x => max acc (f x)) a := by
  intro l
  induction l with
  | nil => intro a; exact Nat.le_refl a
  | cons x t ih =>
    intro a
    rw [List.foldl_cons]
    exact Nat.le_trans (Nat.le_max_left a (f x)) (ih (max a (f x)))

/-- Every cell of a column is bounded by the column maximum. -/
theorem le_colMax (rows : Nat) (source : List (List String)) (i j : Nat)
    (hi : i < rows) :
    (cellAt source i j).length ≤ colMax rows source j := by
  induction rows with
  | zero => omega
  | succ r ih =>
    rw [colMax_succ]
    by_cases h : i < r
    · exact Nat.le_trans (ih h) (Nat.le_max_left _ _)
    · have : i = r := by omega
      subst this
      exact Nat.le_max_right _ _

theorem buffL_zero_cols (rows : Nat) (source : List (List String)) :
    buffL rows 0 source = [] := by
  unfold buffL
  simp

theorem buffL_succ (rows cols : Nat) (source : List (List String)) :
    buffL (rows + 1) cols source
      = buffL rows cols source ++ (List.range cols).map (cellAt source rows) := by
  unfold buffL
  rw [List.range_succ]
  simp

theorem buffL_length (rows cols : Nat) (source : List (List String)) :
    (buffL rows cols source).length = rows * cols := by
  induction rows with
  | zero => simp [buffL]
  | succ r ih =>
    rw [buffL_succ, List.length_append, ih, List.length_map,
      List.length_range, Nat.succ_mul]

/-- The buffer in indexed form: entry `k` is the logical cell of row
`k / cols` and column `k % cols`. -/
theorem buffL_eq_map_range (rows cols : Nat) (source : List (List String))
    (hc : 0 < cols) :
    buffL rows cols source =
      (List.range (rows * cols)).map
        (fun k => cellAt source (k / cols) (k % cols)) := by
  induction rows with
  | zero => simp [buffL]
  | succ r ih =>
    rw [buffL_succ, ih, Nat.succ_mul, List.range_add, List.map_append,
      List.map_map]
    congr 1
    apply List.map_congr_left
    intro j hj
    have hjc : j < cols := List.mem_range.mp hj
    have hdiv : (r * cols + j) / cols = r := by
      rw [Nat.mul_comm, Nat.mul_add_div hc, Nat.div_eq_of_lt hjc, Nat.add_zero]
    have hmod : (r * cols + j) % cols = j := by
      rw [Nat.add_mod, Nat.mul_mod_left, Nat.zero_add, Nat.mod_mod_of_dvd,
        Nat.mod_eq_of_lt hjc]
      exact Dvd.intro_left 1 (Nat.one_mul cols)
    simp [Function.comp, hdiv, hmod]

theorem buffL_get? (rows cols : Nat) (source : List (List String))
    (hc : 0 < cols) (k : Nat) (hk : k < rows * cols) :
    (buffL rows cols source).get? k
      = some (cellAt source (k / cols) (k % cols)) := by
  rw [buffL_eq_map_range rows cols source hc, List.get?_eq_getElem?,
    List.getElem?_map, List.getElem?_range hk]
  rfl

/-- The emission pass succeeds when every buffered cell renders. -/
theorem emit_isSome (p : GridPrinter) (mw : List Nat) (hc : p.cols ≠ 0) :
    ∀ (buff : List String) (st : Nat),
    (∀ k cell, buff.get? k = some cell →
      (print_cellFn mw p.col_spacing cell ((st + k) % p.cols)
        (styleFor p ((st + k) % p.cols))).isSome) →
    (emit p mw st buff).isSome := by
  intro buff
  induction buff with
  | nil => intro st _; rfl
  | cons c rest ih =>
    intro st h
    have h0 := h 0 c rfl
    rw [Nat.add_zero] at h0
    obtain ⟨piece, hpiece⟩ := Option.isSome_iff_exists.mp h0
    have hrest : (emit p mw (st + 1) rest).isSome := by
      apply ih
      intro k cell hk
      have := h (k + 1) cell (by simpa using hk)
      rwa [show st + (k + 1) = st + 1 + k by omega] at this
    obtain ⟨restOut, hrestOut⟩ := Option.isSome_iff_exists.mp hrest
    unfold emit
    rw [if_neg hc, hpiece, hrestOut]
    rfl

/-- The emission pass fails when some buffered cell fails to render. -/
theorem emit_none_of (p : GridPrinter) (mw : List Nat) :
    ∀ (buff : List String) (st k : Nat) (cell : String),
    buff.get? k = some cell →
    print_cellFn mw p.col_spacing cell ((st + k) % p.cols)
      (styleFor p ((st + k) % p.cols)) = none →
    emit p mw st buff = none := by
  intro buff
  induction buff with
  | nil => intro st k cell hk; simp at hk
  | cons c rest ih =>
    intro st k cell hk hfail
    unfold emit
    by_cases hc : p.cols = 0
    · rw [if_pos hc]
    · rw [if_neg hc]
      match k, hk with
      | 0, hk =>
        have : c = cell := by simpa using hk
        subst this
        rw [Nat.add_zero] at hfail
        rw [hfail]
      | k' + 1, hk =>
        have hk' : rest.get? k' = some cell := by simpa using hk
        have := ih (st + 1) k' cell hk'
          (by rwa [show st + 1 + k' = st + (k' + 1) by omega])
        rw [this]
        cases print_cellFn mw p.col_spacing c (st % p.cols)
          (styleFor p (st % p.cols)) <;> rfl

/-- The emission pass reads the printer only through `cols`, `col_spacing`
and `col_colors`. -/
theorem emit_fields_congr (p q : GridPrinter) (hc : p.cols = q.cols)
    (hs : p.col_spacing = q.col_spacing) (hcc : p.col_colors = q.col_colors)
    (mw : List Nat) :
    ∀ (buff : List String) (st : Nat), emit p mw st buff = emit q mw st buff := by
  have hstyle : ∀ c, styleFor p c = styleFor q c := by
    intro c
    unfold styleFor
    rw [hcc]
  intro buff
  induction buff with
  | nil => intro st; rfl
  | cons c rest ih =>
    intro st
    unfold emit
    rw [hc, hs, hstyle, ih]

theorem print_eq (p : GridPrinter) (source : List (List String)) :
    p.print source
      = (emit p (mwL p.rows p.cols source p.max_widths) 0
          (buffL p.rows p.cols source),
         mwL p.rows p.cols source p.max_widths) := by
  unfold GridPrinter.print
  rw [pass1_eq]

/-- After the measurement pass, every buffered cell is bounded by the
recorded width of its column `k % cols`. -/
theorem buff_cell_le_mwL (p : GridPrinter) (source : List (List String))
    (hlen : p.max_widths.length = p.cols) (k : Nat) (cell : String)
    (hget : (buffL p.rows p.cols source).get? k = some cell) :
    cell.length ≤ (mwL p.rows p.cols source p.max_widths).getD (k % p.cols) 0 := by
  by_cases hc : p.cols = 0
  · rw [hc, buffL_zero_cols] at hget
    simp at hget
  · have hcpos : 0 < p.cols := Nat.pos_of_ne_zero hc
    have hk : k < (buffL p.rows p.cols source).length := by
      by_contra h
      rw [List.get?_eq_none.mpr (Nat.le_of_not_lt h)] at hget
      exact Option.noConfusion hget
    rw [buffL_length] at hk
    rw [buffL_get? p.rows p.cols source hcpos k hk] at hget
    have hcell : cell = cellAt source (k / p.cols) (k % p.cols) :=
      (Option.some.injEq _ _ ▸ hget).symm
    have hmodlt : k % p.cols < p.cols := Nat.mod_lt k hcpos
    have hmodlen : k % p.cols < p.max_widths.length := by omega
    rw [mwL_getD p.rows p.cols source p.max_widths _ hmodlen, if_pos hmodlt]
    have hdivlt : k / p.cols < p.rows := Nat.div_lt_of_lt_mul (by
      rw [Nat.mul_comm] at hk; exact hk)
    calc cell.length
        = (cellAt source (k / p.cols) (k % p.cols)).length := by rw [hcell]
      _ ≤ colMax p.rows source (k % p.cols) :=
          le_colMax p.rows source _ _ hdivlt
      _ ≤ max (p.max_widths.getD (k % p.cols) 0)
            (colMax p.rows source (k % p.cols)) := Nat.le_max_right _ _

/-- `print` succeeds whenever every configured style inside the column
range carries a foreground. -/
theorem print_isSome_of (p : GridPrinter) (source : List (List String))
    (hlen : p.max_widths.length = p.cols)
    (hsty : ∀ c, c < p.cols → ∀ so, styleFor p c = some so → so.fg.isSome) :
    ((p.print source).1).isSome := by
  rw [print_eq]
  by_cases hc : p.cols = 0
  · rw [hc, buffL_zero_cols]
    rfl
  · apply emit_isSome p _ hc
    intro k cell hget
    rw [Nat.zero_add]
    unfold print_cellFn
    have hmodlt : k % p.cols < p.cols := Nat.mod_lt k (Nat.pos_of_ne_zero hc)
    have hs : (styledCellText (styleFor p (k % p.cols)) cell).isSome := by
      unfold styledCellText
      cases hst : styleFor p (k % p.cols) with
      | none => rfl
      | some so =>
        have := hsty (k % p.cols) hmodlt so hst
        cases hfg : so.fg with
        | none => rw [hfg] at this; simp at this
        | some f => simp [hfg]
    obtain ⟨s, hs'⟩ := Option.isSome_iff_exists.mp hs
    rw [hs']
    have hle := buff_cell_le_mwL p source hlen k cell hget
    have hle' : cell.length
        ≤ (mwL p.rows p.cols source p.max_widths)[k % p.cols]?.getD 0 := by
      rwa [List.getD_eq_getD_get?, List.get?_eq_getElem?] at hle
    simp [hle, hle']

/-- The prior cached widths only ever grow under the measurement pass. -/
theorem mwL_getD_mono (rows cols : Nat) (source : List (List String))
    (mw : List Nat) (k : Nat) :
    mw.getD k 0 ≤ (mwL rows cols source mw).getD k 0 := by
  by_cases hk : k < mw.length
  · rw [mwL_getD rows cols source mw k hk]
    by_cases hkc : k < cols
    · rw [if_pos hkc]; exact Nat.le_max_left _ _
    · rw [if_neg hkc]
  · rw [List.getD_eq_default _ _ (Nat.le_of_not_lt hk)]
    exact Nat.zero_le _

/-- Measuring a second time from the already-measured cache is a no-op. -/
theorem mwL_idem (rows cols : Nat) (source : List (List String))
    (mw : List Nat) :
    mwL rows cols source (mwL rows cols source mw) = mwL rows cols source mw := by
  apply List.ext_getElem (by rw [mwL_length, mwL_length])
  intro k h1 h2
  have hk : k < mw.length := by rw [mwL_length, mwL_length] at h1; exact h1
  have hkin : k < (mwL rows cols source mw).length := by rw [mwL_length]; exact hk
  rw [← List.getD_eq_getElem _ 0 h1, ← List.getD_eq_getElem _ 0 h2]
  rw [mwL_getD rows cols source _ k hkin, mwL_getD rows cols source mw k hk]
  by_cases hkc : k < cols
  · rw [if_pos hkc, if_pos hkc, Nat.max_assoc, Nat.max_self]
  · rw [if_neg hkc, if_neg hkc]

theorem buffL_congr (rows cols : Nat) (S1 S2 : List (List String))
    (h : ∀ i j, i < rows → j < cols → cellAt S1 i j = cellAt S2 i j) :
    buffL rows cols S1 = buffL rows cols S2 := by
  induction rows with
  | zero => rfl
  | succ r ih =>
    rw [buffL_succ, buffL_succ,
      ih (fun i j hi hj => h i j (Nat.lt_succ_of_lt hi) hj),
      List.map_congr_left (fun j hj =>
        h r j (Nat.lt_succ_self r) (List.mem_range.mp hj))]

theorem mwL_congr (rows cols : Nat) (S1 S2 : List (List String))
    (mw : List Nat)
    (h : ∀ i j, i < rows → j < cols → cellAt S1 i j = cellAt S2 i j) :
    mwL rows cols S1 mw = mwL rows cols S2 mw := by
  induction rows with
  | zero => rfl
  | succ r ih =>
    rw [mwL_succ, mwL_succ,
      ih (fun i j hi hj => h i j (Nat.lt_succ_of_lt hi) hj)]
    unfold rowMw
    exact foldl_congr_mem (List.range cols) _ _
      (fun m j hj => by
        rw [h r j (Nat.lt_succ_self r) (List.mem_range.mp hj)]) _

/-- `print` reads the source only through the logical `rows × cols`
window. -/
theorem print_source_window (p : GridPrinter) (S1 S2 : List (List String))
    (h : ∀ i j, i < p.rows → j < p.cols → cellAt S1 i j = cellAt S2 i j) :
    p.print S1 = p.print S2 := by
  rw [print_eq, print_eq, buffL_congr p.rows p.cols S1 S2 h,
    mwL_congr p.rows p.cols S1 S2 p.max_widths h]

/-- `cellAt` as a single `bind`/`getD` expression. -/
theorem cellAt_eq_bind (source : List (List String)) (i j : Nat) :
    cellAt source i j
      = ((source.get? i).bind (fun row => row.get? j)).getD "" := by
  unfold cellAt
  cases hrow : source.get? i with
  | none => rfl
  | some row =>
    rw [Option.some_bind]
    show (match row.get? j with | none => "" | some el => el) = _
    cases hel : row.get? j with
    | none => rfl
    | some el => rfl

theorem cellAt_rectView (rows cols i j : Nat) (source : List (List String))
    (hi : i < rows) (hj : j < cols) :
    cellAt (rectView rows cols source) i j = cellAt source i j := by
  have h1 : (rectView rows cols source).get? i
      = some ((List.range cols).map (cellAt source i)) := by
    unfold rectView
    rw [List.get?_eq_getElem?, List.getElem?_map, List.getElem?_range hi]
    rfl
  have h2 : ((List.range cols).map (cellAt source i)).get? j
      = some (cellAt source i j) := by
    rw [List.get?_eq_getElem?, List.getElem?_map, List.getElem?_range hj]
    rfl
  rw [show cellAt (rectView rows cols source) i j
      = (((rectView rows cols source).get? i).bind
          (fun row => row.get? j)).getD ""
    from cellAt_eq_bind _ i j]
  rw [h1, Option.some_bind, h2]
  rfl

theorem mwL_zero_cols (rows : Nat) (source : List (List String))
    (mw : List Nat) : mwL rows 0 source mw = mw := by
  unfold mwL
  rw [foldl_congr_mem (List.range rows) (fun m i => rowMw source i 0 m)
    (fun m _ => m) (fun m i _ => rfl) mw]
  exact foldl_id _ mw

/-- C1: `GridPrinterBuilder::col_colors` evaluated at the failing input —
a builder with `cols = 2` given a styles sequence of length 1.  Contrary
to the claimed `DimensionError` rejection, the operation is infallible
(its return type is the builder, not a `Result`) and it stores the
mismatched-length sequence, replacing the prior styles. -/
theorem col_colors_accepts_mismatched_length :
    (GridPrinterBuilder.new 1 2).col_colors_set [none]
      = { rows := 1, cols := 2, col_spacing := 2,
          col_colors := some [none] } := rfl

/-- C2: the per-index column-style builder operation (modelled from the
spec; absent from `src/`): with `index ≥ cols` it fails with
`DimensionErr` and returns no builder (no state is mutated); with
`index < cols` it sets exactly the entry at `index` of the styles
sequence, lazily allocated as all-absent of length `cols` when none
exists yet. -/
theorem col_style_validates_index (b : GridPrinterBuilder) (i : Nat)
    (s : StyleOpt) :
    (b.cols ≤ i →
      b.col_style i s = Except.error GridPrinterErr.DimensionErr) ∧
    (i < b.cols →
      b.col_style i s = Except.ok { b with
        col_colors := some ((b.col_colors.getD
          (List.replicate b.cols none)).set i (some s)) }) ∧
    (i < b.cols → b.col_colors = none →
      ((List.replicate b.cols none).set i (some s)).length = b.cols ∧
      ((List.replicate b.cols none).set i (some s)).get? i
        = some (some s) ∧
      ∀ j, j < b.cols → j ≠ i →
        ((List.replicate b.cols none).set i (some s)).get? j
          = some none) := by
  refine ⟨fun h => ?_, fun h => ?_, fun h hcc => ⟨?_, ?_, ?_⟩⟩
  · unfold GridPrinterBuilder.col_style
    rw [if_pos h]
  · unfold GridPrinterBuilder.col_style
    rw [if_neg (Nat.not_le.mpr h)]
  · rw [List.length_set, List.length_replicate]
  · rw [List.get?_eq_getElem?,
      List.getElem?_set_self (by rw [List.length_replicate]; exact h)]
  · intro j hj hij
    rw [List.get?_eq_getElem?, List.getElem?_set_ne (fun hh => hij hh.symm),
      List.getElem?_replicate, if_pos hj]

theorem col_style_validates_index_witness :
    (GridPrinterBuilder.new 1 2).col_style 2 StyleOpt.new
        = Except.error GridPrinterErr.DimensionErr ∧
      (GridPrinterBuilder.new 1 2).col_style 0 StyleOpt.new
        = Except.ok { rows := 1, cols := 2, col_spacing := 2,
                      col_colors := some [some StyleOpt.new, none] } :=
  ⟨(col_style_validates_index (GridPrinterBuilder.new 1 2) 2
      StyleOpt.new).1 (by decide),
   ((col_style_validates_index (GridPrinterBuilder.new 1 2) 0
      StyleOpt.new).2.1 (by decide)).trans rfl⟩

/-- C3 counterexample: the width cache is not recomputed from scratch —
after an earlier `print` of a wider cell on the same instance, printing
`[["a"]]` yields different output than on a freshly built printer with
the same configuration (stale width 2 instead of 1). -/
theorem print_after_prior_call_differs_from_fresh :
    (GridPrinter.print
      { (GridPrinterBuilder.new 1 1).build with
        max_widths :=
          (((GridPrinterBuilder.new 1 1).build).print [["ab"]]).2 }
      [["a"]]).1
    ≠ (((GridPrinterBuilder.new 1 1).build).print [["a"]]).1 := by
  decide

/-- C3 as amended: the `max_widths` cache persists across `print` calls
and only accumulates (each call raises each in-range entry to the
column's maximum, never lowering any entry), so output need not match a
fresh printer; nevertheless an immediately repeated `print` of the same
input produces identical output and leaves the cache unchanged. -/
theorem print_repeat_same_input_stable (p : GridPrinter)
    (source : List (List String)) :
    GridPrinter.print { p with max_widths := (p.print source).2 } source
        = p.print source ∧
    ∀ j : Nat, p.max_widths.getD j 0 ≤ (p.print source).2.getD j 0 := by
  constructor
  · have hmw := mwL_idem p.rows p.cols source p.max_widths
    rw [print_eq, print_eq]
    dsimp only
    rw [hmw]
    have he := emit_fields_congr
      { p with max_widths := mwL p.rows p.cols source p.max_widths } p rfl rfl
      rfl (mwL p.rows p.cols source p.max_widths)
      (buffL p.rows p.cols source) 0
    rw [he]
  · intro j
    rw [print_eq]
    dsimp only
    exact mwL_getD_mono p.rows p.cols source p.max_widths j

/-- C4: the claimed emission `fg code + bg code + sgr code + text + reset`
does not happen: with a column style carrying only a background (no
foreground), `print` panics on the unconditional foreground `unwrap` in
`print_cell` and emits nothing at all. -/
theorem print_with_background_only_style_panics :
    (GridPrinter.print
      (((GridPrinterBuilder.new 1 1).col_colors_set
        [some { fg := none, bg := some Bg.BrightYellow, sgr := none }]).build)
      [["x"]]).1 = none := rfl

/-- C9: a printer with `rows = 0` or `cols = 0` is legal: `print` emits
nothing at all, does not fail (in particular the per-row modulo on `cols`
is never evaluated, the buffer being empty), and leaves the width cache
untouched; and `new(rows, cols)` defaults `col_spacing` to 2. -/
theorem zero_dims_print_nothing (p : GridPrinter)
    (source : List (List String)) (r c : Nat)
    (h : p.rows = 0 ∨ p.cols = 0) :
    p.print source = (some "", p.max_widths) ∧
    (GridPrinterBuilder.new r c).col_spacing = 2 := by
  refine ⟨?_, rfl⟩
  rcases h with h0 | h0
  · rw [print_eq, h0]
    rfl
  · rw [print_eq, h0, buffL_zero_cols, mwL_zero_cols]
    rfl

theorem zero_dims_print_nothing_witness :
    GridPrinter.print ((GridPrinterBuilder.new 0 2).build) [["x"]]
        = (some "", ((GridPrinterBuilder.new 0 2).build).max_widths) ∧
      (GridPrinterBuilder.new 5 7).col_spacing = 2 :=
  zero_dims_print_nothing ((GridPrinterBuilder.new 0 2).build) [["x"]] 5 7
    (Or.inl rfl)

/-- C5: on a freshly built printer over a rectangular `rows × cols`
source, the width recorded for each column equals the maximum cell length
of that column; `print` succeeds (provided every configured in-range
style carries a foreground, without which the printer panics), and every
logical cell is rendered by `print_cell` as its (possibly styled) text
followed by exactly `max_widths[col] - raw length + col_spacing` padding
spaces, so that raw length plus padding — the rendered column width — is
`colMax + col_spacing`, independent of the styling. -/
theorem fresh_print_widths_and_padding (p : GridPrinter)
    (source : List (List String))
    (hfresh : p.max_widths = List.replicate p.cols 0)
    (_hrows : source.length = p.rows)
    (_hrect : ∀ row ∈ source, row.length = p.cols)
    (hsty : ∀ c, c < p.cols → ∀ so, styleFor p c = some so → so.fg.isSome) :
    ((p.print source).1).isSome ∧
    (∀ c, c < p.cols →
      (p.print source).2.getD c 0 = colMax p.rows source c) ∧
    (∀ r c, r < p.rows → c < p.cols →
      ∃ s, styledCellText (styleFor p c) (cellAt source r c) = some s ∧
        print_cellFn (p.print source).2 p.col_spacing (cellAt source r c) c
            (styleFor p c)
          = some (s ++ padStr (colMax p.rows source c
              - (cellAt source r c).length + p.col_spacing)) ∧
        (cellAt source r c).length
            + (colMax p.rows source c - (cellAt source r c).length
              + p.col_spacing)
          = colMax p.rows source c + p.col_spacing) := by
  have hlen : p.max_widths.length = p.cols := by
    rw [hfresh, List.length_replicate]
  have hwidth : ∀ c, c < p.cols →
      (p.print source).2.getD c 0 = colMax p.rows source c := by
    intro c hc
    rw [print_eq]
    dsimp only
    rw [mwL_getD p.rows p.cols source p.max_widths c (by rw [hlen]; exact hc),
      if_pos hc]
    have hrep : p.max_widths.getD c 0 = 0 := by
      rw [hfresh, List.getD_eq_getD_get?, List.get?_eq_getElem?,
        List.getElem?_replicate, if_pos hc]
      rfl
    rw [hrep, Nat.zero_max]
  refine ⟨print_isSome_of p source hlen hsty, hwidth, ?_⟩
  intro r c hr hc
  have hs : (styledCellText (styleFor p c) (cellAt source r c)).isSome := by
    unfold styledCellText
    cases hst : styleFor p c with
    | none => rfl
    | some so =>
      have := hsty c hc so hst
      cases hfg : so.fg with
      | none => rw [hfg] at this; simp at this
      | some f => simp [hfg]
  obtain ⟨s, hs'⟩ := Option.isSome_iff_exists.mp hs
  have hle : (cellAt source r c).length ≤ (p.print source).2.getD c 0 := by
    rw [hwidth c hc]
    exact le_colMax p.rows source r c hr
  refine ⟨s, hs', ?_, ?_⟩
  · unfold print_cellFn
    rw [hs']
    simp only [hwidth c hc]
    rw [if_pos (by rw [hwidth c hc] at hle; exact hle)]
  · have := le_colMax p.rows source r c hr
    omega

theorem fresh_print_widths_and_padding_witness :
    ((egPrinter.print egSource).1).isSome ∧
    (egPrinter.print egSource).2.getD 0 0 = colMax 2 egSource 0 :=
  ⟨(fresh_print_widths_and_padding egPrinter egSource rfl rfl (by decide)
      (by
        intro c hc so hso
        have hc2 : c < 2 := hc
        interval_cases c
        · rw [show styleFor egPrinter 0
              = some { fg := some Fg.Magenta, bg := none, sgr := none }
            from rfl] at hso
          injection hso with h
          rw [← h]
          rfl
        · rw [show styleFor egPrinter 1 = none from rfl] at hso
          exact Option.noConfusion hso)).1,
   (fresh_print_widths_and_padding egPrinter egSource rfl rfl (by decide)
      (by
        intro c hc so hso
        have hc2 : c < 2 := hc
        interval_cases c
        · rw [show styleFor egPrinter 0
              = some { fg := some Fg.Magenta, bg := none, sgr := none }
            from rfl] at hso
          injection hso with h
          rw [← h]
          rfl
        · rw [show styleFor egPrinter 1 = none from rfl] at hso
          exact Option.noConfusion hso)).2.1 0 (by decide)⟩

/-- C6: `print` raises no error on undersized sources: it behaves exactly
as on the explicit `rows × cols` rectangular view in which every absent
row or cell is the empty string padded to its column's width, and entries
beyond the configured window are never read (the rectangular view drops
them); absent rows and absent cells are normalized to the empty string. -/
theorem undersized_input_no_error (p : GridPrinter)
    (source : List (List String))
    (hlen : p.max_widths.length = p.cols)
    (hsty : ∀ c, c < p.cols → ∀ so, styleFor p c = some so → so.fg.isSome) :
    ((p.print source).1).isSome ∧
    p.print source = p.print (rectView p.rows p.cols source) ∧
    (∀ i j, source.get? i = none → cellAt source i j = "") ∧
    (∀ i j row, source.get? i = some row → row.get? j = none →
      cellAt source i j = "") := by
  refine ⟨print_isSome_of p source hlen hsty, ?_, ?_, ?_⟩
  · exact print_source_window p _ _ (fun i j hi hj =>
      (cellAt_rectView p.rows p.cols i j source hi hj).symm)
  · intro i j h
    rw [cellAt_eq_bind, h]
    rfl
  · intro i j row h1 h2
    rw [cellAt_eq_bind, h1, Option.some_bind, h2]
    rfl

theorem undersized_input_no_error_witness :
    ((egPrinter3.print [["a"], ["b", "c"]]).1).isSome ∧
    egPrinter3.print [["a"], ["b", "c"]]
      = egPrinter3.print (rectView 3 3 [["a"], ["b", "c"]]) :=
  ⟨(undersized_input_no_error egPrinter3 [["a"], ["b", "c"]] rfl
      (fun _ _ _ hso => Option.noConfusion hso)).1,
   (undersized_input_no_error egPrinter3 [["a"], ["b", "c"]] rfl
      (fun _ _ _ hso => Option.noConfusion hso)).2.1⟩

/-- C8: within a single `print` call the unsigned subtraction
`column_width - cell_length` never underflows: after the measurement pass
over the full grid, every buffered cell's raw length is bounded by the
recorded width of its emission column `k % cols`. -/
theorem measured_width_bounds_emitted_cells (p : GridPrinter)
    (source : List (List String)) (hlen : p.max_widths.length = p.cols)
    (k : Nat) (cell : String)
    (hget : (pass1 p source).1.get? k = some cell) :
    cell.length ≤ (pass1 p source).2.getD (k % p.cols) 0 := by
  rw [pass1_eq] at hget
  rw [pass1_eq]
  exact buff_cell_le_mwL p source hlen k cell hget

theorem measured_width_bounds_emitted_cells_witness :
    "ab".length ≤ (pass1 ((GridPrinterBuilder.new 1 1).build)
      [["ab"]]).2.getD (0 % ((GridPrinterBuilder.new 1 1).build).cols) 0 :=
  measured_width_bounds_emitted_cells ((GridPrinterBuilder.new 1 1).build)
    [["ab"]] rfl 0 "ab" rfl

/-- C10: a configured style with no foreground on an in-range column of a
printer with at least one row makes `print` panic: `print_cell`
unconditionally unwraps the style's foreground, so the whole call aborts
and that cell's text is never emitted. -/
theorem style_without_foreground_panics (p : GridPrinter)
    (source : List (List String)) (c : Nat) (so : StyleOpt)
    (hc : c < p.cols) (hr : 1 ≤ p.rows)
    (hsty : styleFor p c = some so) (hfg : so.fg = none) :
    (p.print source).1 = none := by
  rw [print_eq]
  dsimp only
  have hcpos : 0 < p.cols := by omega
  have hck : c < p.rows * p.cols :=
    Nat.lt_of_lt_of_le hc (Nat.le_mul_of_pos_left p.cols hr)
  apply emit_none_of p _ _ 0 c (cellAt source (c / p.cols) (c % p.cols))
    (buffL_get? p.rows p.cols source hcpos c hck)
  rw [Nat.zero_add, Nat.mod_eq_of_lt hc, hsty]
  have hstyled : styledCellText (some so) (cellAt source (c / p.cols) c)
      = none := by
    simp only [styledCellText, hfg, Option.map_none']
  unfold print_cellFn
  rw [hstyled]

theorem style_without_foreground_panics_witness :
    (egPrinterNoFg.print [["a", "b"]]).1 = none :=
  style_without_foreground_panics egPrinterNoFg [["a", "b"]] 1
    { fg := none, bg := none, sgr := some Sgr.Bold }
    (by decide) (by decide) rfl rfl
